import Mathlib

/-!
# kinova_manipulation: visual servoing and differential inverse kinematics

A shallow embedding of the two nodes of the repository:

* `src/visual_servoing.cpp`: the timer callback `visual_servo`, which turns three
  looked-up transforms into a Cartesian velocity command;
* `src/joint_trajectory_control.cpp`: `pseudoInverse`, the subscriber callback
  `setTrajectoryFromVelocity` and the timer callback `send_kinova_joint_vels`.

Numbers are elements of an arbitrary (linearly ordered) field `F`; the theorems about
magnitudes instantiate `F` with the real numbers and the square root with `Real.sqrt`.
The operations of the `tf` library used by the code (`tf::Transform`, `tf::Matrix3x3`)
are transcribed from the library's `LinearMath` headers.
-/

namespace Kinova

/-! ## Data model of `visual_servoing.cpp` -/

/-- The type `tf::Vector3` / `geometry_msgs::Vector3`: three scalar components. -/
@[ext]
structure Vector3 (F : Type) where
  x : F
  y : F
  z : F
deriving DecidableEq

/-- The type `tf::Quaternion` / `geometry_msgs::Quaternion`. -/
@[ext]
structure Quaternion (F : Type) where
  x : F
  y : F
  z : F
  w : F
deriving DecidableEq

/-- The message `geometry_msgs::Transform` (the payload of a `TransformStamped`). -/
@[ext]
structure TransformMsg (F : Type) where
  translation : Vector3 F
  rotation : Quaternion F
deriving DecidableEq

/-- The type `tf::Matrix3x3`: the three rows `m_el[0..2]`. -/
@[ext]
structure Matrix3x3 (F : Type) where
  r0 : Vector3 F
  r1 : Vector3 F
  r2 : Vector3 F
deriving DecidableEq

/-- The type `tf::Transform`: a basis matrix and an origin. -/
@[ext]
structure Transform (F : Type) where
  m_basis : Matrix3x3 F
  m_origin : Vector3 F
deriving DecidableEq

/-- The message `geometry_msgs::Twist`. -/
@[ext]
structure Twist (F : Type) where
  linear : Vector3 F
  angular : Vector3 F
deriving DecidableEq

section TF

variable {F : Type} [Field F]

/-- The zero vector (a default-constructed `geometry_msgs::Vector3`). -/
def Vector3.zero : Vector3 F := ⟨0, 0, 0⟩

/-- The method `Vector3::dot`. -/
def Vector3.dot (a b : Vector3 F) : F := a.x * b.x + a.y * b.y + a.z * b.z

/-- Component-wise sum (`Vector3::operator+=`). -/
def Vector3.add (a b : Vector3 F) : Vector3 F := ⟨a.x + b.x, a.y + b.y, a.z + b.z⟩

/-- Component-wise difference (`operator-` on `Vector3`). -/
def Vector3.sub (a b : Vector3 F) : Vector3 F := ⟨a.x - b.x, a.y - b.y, a.z - b.z⟩

/-- Unary minus on `Vector3`. -/
def Vector3.neg (a : Vector3 F) : Vector3 F := ⟨-a.x, -a.y, -a.z⟩

/-- The method `Quaternion::length2`. -/
def Quaternion.length2 (q : Quaternion F) : F := q.x * q.x + q.y * q.y + q.z * q.z + q.w * q.w

/-- The identity matrix (`Matrix3x3::getIdentity`). -/
def Matrix3x3.identity : Matrix3x3 F := ⟨⟨1, 0, 0⟩, ⟨0, 1, 0⟩, ⟨0, 0, 1⟩⟩

/-- The method `Matrix3x3::setRotation(q)`: the basis built from a quaternion. -/
def Matrix3x3.setRotation (q : Quaternion F) : Matrix3x3 F :=
  let d := q.length2
  let s := 2 / d
  let xs := q.x * s
  let ys := q.y * s
  let zs := q.z * s
  let wx := q.w * xs
  let wy := q.w * ys
  let wz := q.w * zs
  let xx := q.x * xs
  let xy := q.x * ys
  let xz := q.x * zs
  let yy := q.y * ys
  let yz := q.y * zs
  let zz := q.z * zs
  ⟨⟨1 - (yy + zz), xy - wz, xz + wy⟩,
   ⟨xy + wz, 1 - (xx + zz), yz - wx⟩,
   ⟨xz - wy, yz + wx, 1 - (xx + yy)⟩⟩

/-- The methods `Matrix3x3::tdotx`, `tdoty`, `tdotz`: dot product of a column with `v`. -/
def Matrix3x3.tdotx (m : Matrix3x3 F) (v : Vector3 F) : F :=
  m.r0.x * v.x + m.r1.x * v.y + m.r2.x * v.z

/-- See `tdotx`. -/
def Matrix3x3.tdoty (m : Matrix3x3 F) (v : Vector3 F) : F :=
  m.r0.y * v.x + m.r1.y * v.y + m.r2.y * v.z

/-- See `tdotx`. -/
def Matrix3x3.tdotz (m : Matrix3x3 F) (v : Vector3 F) : F :=
  m.r0.z * v.x + m.r1.z * v.y + m.r2.z * v.z

/-- Matrix times vector: `operator*(const Matrix3x3&, const Vector3&)`. -/
def Matrix3x3.mulVec (m : Matrix3x3 F) (v : Vector3 F) : Vector3 F :=
  ⟨m.r0.dot v, m.r1.dot v, m.r2.dot v⟩

/-- Vector times matrix: `operator*(const Vector3&, const Matrix3x3&)`. -/
def Matrix3x3.vecMul (v : Vector3 F) (m : Matrix3x3 F) : Vector3 F :=
  ⟨m.tdotx v, m.tdoty v, m.tdotz v⟩

/-- Matrix product: `Matrix3x3::operator*=` (and `operator*`). -/
def Matrix3x3.mul (a m : Matrix3x3 F) : Matrix3x3 F :=
  ⟨⟨m.tdotx a.r0, m.tdoty a.r0, m.tdotz a.r0⟩,
   ⟨m.tdotx a.r1, m.tdoty a.r1, m.tdotz a.r1⟩,
   ⟨m.tdotx a.r2, m.tdoty a.r2, m.tdotz a.r2⟩⟩

/-- The method `Matrix3x3::transpose`. -/
def Matrix3x3.transpose (m : Matrix3x3 F) : Matrix3x3 F :=
  ⟨⟨m.r0.x, m.r1.x, m.r2.x⟩, ⟨m.r0.y, m.r1.y, m.r2.y⟩, ⟨m.r0.z, m.r1.z, m.r2.z⟩⟩

/-- The method `Matrix3x3::transposeTimes`: the product of the transpose of `a` with `m`. -/
def Matrix3x3.transposeTimes (a m : Matrix3x3 F) : Matrix3x3 F :=
  ⟨⟨a.r0.x * m.r0.x + a.r1.x * m.r1.x + a.r2.x * m.r2.x,
    a.r0.x * m.r0.y + a.r1.x * m.r1.y + a.r2.x * m.r2.y,
    a.r0.x * m.r0.z + a.r1.x * m.r1.z + a.r2.x * m.r2.z⟩,
   ⟨a.r0.y * m.r0.x + a.r1.y * m.r1.x + a.r2.y * m.r2.x,
    a.r0.y * m.r0.y + a.r1.y * m.r1.y + a.r2.y * m.r2.y,
    a.r0.y * m.r0.z + a.r1.y * m.r1.z + a.r2.y * m.r2.z⟩,
   ⟨a.r0.z * m.r0.x + a.r1.z * m.r1.x + a.r2.z * m.r2.x,
    a.r0.z * m.r0.y + a.r1.z * m.r1.y + a.r2.z * m.r2.y,
    a.r0.z * m.r0.z + a.r1.z * m.r1.z + a.r2.z * m.r2.z⟩⟩

/-- The conversion `tf::transformStampedMsgToTF` (through `transformMsgToTF`):
`Transform(Quaternion(rotation), Vector3(translation))`. -/
def transformStampedMsgToTF (msg : TransformMsg F) : Transform F :=
  ⟨Matrix3x3.setRotation msg.rotation, msg.translation⟩

/-- The method `Transform::setRotation(q)`: replaces the basis, keeps the origin. -/
def Transform.setRotation (t : Transform F) (q : Quaternion F) : Transform F :=
  { t with m_basis := Matrix3x3.setRotation q }

/-- The method `Transform::operator*=`:
`m_origin += m_basis * t.m_origin; m_basis *= t.m_basis`. -/
def Transform.mulAssign (a t : Transform F) : Transform F :=
  ⟨a.m_basis.mul t.m_basis, a.m_origin.add (a.m_basis.mulVec t.m_origin)⟩

/-- The method `Transform::operator()`: applies the transform to a point. -/
def Transform.apply (a : Transform F) (p : Vector3 F) : Vector3 F :=
  ⟨a.m_basis.r0.dot p + a.m_origin.x, a.m_basis.r1.dot p + a.m_origin.y,
   a.m_basis.r2.dot p + a.m_origin.z⟩

/-- The method `Transform::operator*`: `Transform(m_basis * t.m_basis, (*this)(t.m_origin))`. -/
def Transform.mul (a t : Transform F) : Transform F :=
  ⟨a.m_basis.mul t.m_basis, a.apply t.m_origin⟩

/-- The method `Transform::inverse`:
`inv = m_basis.transpose(); Transform(inv, inv * -m_origin)`. -/
def Transform.inverse (a : Transform F) : Transform F :=
  ⟨a.m_basis.transpose, a.m_basis.transpose.mulVec a.m_origin.neg⟩

/-- The method `Transform::inverseTimes`:
`v = t.getOrigin() - m_origin; Transform(m_basis.transposeTimes(t.m_basis), v * m_basis)`. -/
def Transform.inverseTimes (a t : Transform F) : Transform F :=
  let v := t.m_origin.sub a.m_origin
  ⟨a.m_basis.transposeTimes t.m_basis, Matrix3x3.vecMul v a.m_basis⟩

/-- The quaternion `tf::Quaternion(0, 0, 0, 1)`. -/
def Quaternion.identity : Quaternion F := ⟨0, 0, 0, 1⟩

/-- Lines 41-58 of `visual_servo`: the transform `errorTf` computed from the three
looked-up transforms (vision, marker to end effector, target). -/
def errorTf (eefMarkerVisionTransform eefMarkerToEefTransform targetTransform : TransformMsg F) :
    Transform F :=
  let vTf := transformStampedMsgToTF eefMarkerVisionTransform
  let mTf := transformStampedMsgToTF eefMarkerToEefTransform
  let targetTf := transformStampedMsgToTF targetTransform
  let targetTf := targetTf.setRotation Quaternion.identity
  let vTf := vTf.mulAssign mTf
  let vTf := vTf.setRotation Quaternion.identity
  vTf.inverseTimes targetTf

/-- The Hamilton product of two quaternions (components ordered x, y, z, w). -/
def Quaternion.mul (p q : Quaternion F) : Quaternion F :=
  ⟨p.w * q.x + p.x * q.w + p.y * q.z - p.z * q.y,
   p.w * q.y - p.x * q.z + p.y * q.w + p.z * q.x,
   p.w * q.z + p.x * q.y - p.y * q.x + p.z * q.w,
   p.w * q.w - p.x * q.x - p.y * q.y - p.z * q.z⟩

/-- The conjugate of a quaternion. -/
def Quaternion.conj (q : Quaternion F) : Quaternion F := ⟨-q.x, -q.y, -q.z, q.w⟩

/-- The rotation of a vector by a unit quaternion, as the spec understands `R_v * t_m`:
the vector part of `q * (v, 0) * conj q`. -/
def rotate (q : Quaternion F) (v : Vector3 F) : Vector3 F :=
  let r := (q.mul ⟨v.x, v.y, v.z, 0⟩).mul q.conj
  ⟨r.x, r.y, r.z⟩

/-- The spec's reading of steps 2-4 of the visual servoing cycle: the rotation-discarded
composition of vision and offset, inverted, applied to the rotation-discarded target. -/
def errorTfSpec (vision marker target : TransformMsg F) : Transform F :=
  let composed :=
    ((transformStampedMsgToTF vision).mul (transformStampedMsgToTF marker)).setRotation
      Quaternion.identity
  composed.inverse.mul ((transformStampedMsgToTF target).setRotation Quaternion.identity)

end TF

section Servo

variable {F : Type} [LinearOrderedField F]

/-- The expression `sqrt(pow(x, 2.0) + pow(y, 2.0) + pow(z, 2.0))` of line 77, for the
square root function `sqrt` of the scalar type. -/
def magnitude (sqrt : F → F) (v : Vector3 F) : F :=
  sqrt (v.x ^ 2 + v.y ^ 2 + v.z ^ 2)

/-- Lines 41-95 of `visual_servo`: the twist built from the three looked-up transforms.
Of the message `errorTransform` written by `transformTFToMsg` only the translation (the
origin of `errorTf`) is read afterwards. The twist is default-constructed, so its angular
part stays zero. -/
def servoTwist (sqrt : F → F) (visual_servoing_k visual_servoing_speed_cap : F)
    (eefMarkerVisionTransform eefMarkerToEefTransform targetTransform : TransformMsg F) :
    Twist F :=
  let errorTransform :=
    (errorTf eefMarkerVisionTransform eefMarkerToEefTransform targetTransform).m_origin
  let errorTransform : Vector3 F :=
    ⟨errorTransform.x * visual_servoing_k, errorTransform.y * visual_servoing_k,
     errorTransform.z * visual_servoing_k⟩
  let magnitude := magnitude sqrt targetTransform.translation
  let errorTransform : Vector3 F :=
    if magnitude > visual_servoing_speed_cap then
      ⟨errorTransform.x / magnitude * visual_servoing_speed_cap,
       errorTransform.y / magnitude * visual_servoing_speed_cap,
       errorTransform.z / magnitude * visual_servoing_speed_cap⟩
    else errorTransform
  ⟨errorTransform, Vector3.zero⟩

/-- The observable state of the `visual_servoing` process: the messages published on
`vel_pub` (oldest first) and whether `ros::shutdown()` has been requested. -/
structure ServoNode (F : Type) where
  vel_pub : List (Twist F)
  shutdown : Bool

/-- The three `lookupTransform` calls of the `try` block (lines 26-30), in order; each
returns a transform or throws a `tf2::TransformException`, modelled as `Except`. -/
def lookups (vision marker target : Except String (TransformMsg F)) :
    Except String (TransformMsg F × TransformMsg F × TransformMsg F) := do
  let eefMarkerVisionTransform ← vision
  let eefMarkerToEefTransform ← marker
  let targetTransform ← target
  pure (eefMarkerVisionTransform, eefMarkerToEefTransform, targetTransform)

/-- The timer callback `visual_servo`: on a failed lookup it requests shutdown and
returns; otherwise it publishes one twist. -/
def visual_servo (sqrt : F → F) (visual_servoing_k visual_servoing_speed_cap : F)
    (vision marker target : Except String (TransformMsg F)) (node : ServoNode F) :
    ServoNode F :=
  match lookups vision marker target with
  | .error _ => { node with shutdown := true }
  | .ok (v, m, t) =>
    { node with
      vel_pub := node.vel_pub ++
        [servoTwist sqrt visual_servoing_k visual_servoing_speed_cap v m t] }

/-- The life of the process after `main` has created the timer: the callback runs once
per timer period until shutdown has been requested, at which point `ros::waitForShutdown`
returns and `main` ends. Each list element holds the lookup results of one cycle. -/
def spin (sqrt : F → F) (visual_servoing_k visual_servoing_speed_cap : F) :
    List (Except String (TransformMsg F) × Except String (TransformMsg F) ×
      Except String (TransformMsg F)) → ServoNode F → ServoNode F
  | [], node => node
  | (vision, marker, target) :: rest, node =>
    if node.shutdown then node
    else spin sqrt visual_servoing_k visual_servoing_speed_cap rest
      (visual_servo sqrt visual_servoing_k visual_servoing_speed_cap vision marker target node)

end Servo

/-! ## Data model of `joint_trajectory_control.cpp` -/

/-- The message `kinova_msgs::JointVelocity`, with the six fields the node writes. -/
@[ext]
structure JointVelocity (F : Type) where
  joint1 : F
  joint2 : F
  joint3 : F
  joint4 : F
  joint5 : F
  joint6 : F
deriving DecidableEq

/-- The message `trajectory_msgs::JointTrajectoryPoint`; `time_from_start` in seconds. -/
@[ext]
structure JointTrajectoryPoint (F : Type) where
  positions : List F
  velocities : List F
  accelerations : List F
  effort : List F
  time_from_start : F
deriving DecidableEq

/-- The message `trajectory_msgs::JointTrajectory`: the header stamp, the joint names
and the waypoints. -/
@[ext]
structure JointTrajectory (F : Type) where
  stamp : Nat
  joint_names : List String
  points : List (JointTrajectoryPoint F)
deriving DecidableEq

/-- What the callback reads from the robot state returned by
`move_group->getCurrentState()` for the six-joint group `arm`: the Jacobian
(`getJacobian`) and the joint positions (`copyJointGroupPositions`). -/
structure RobotState (F : Type) where
  jacobian : Matrix (Fin 6) (Fin 6) F
  joint_values : Fin 6 → F

/-- The result of `Eigen::JacobiSVD` with `ComputeThinU | ComputeThinV` on a 6 x 6 matrix:
`matrixU()`, `matrixV()` and `singularValues()`. -/
structure JacobiSVD (F : Type) where
  matrixU : Matrix (Fin 6) (Fin 6) F
  matrixV : Matrix (Fin 6) (Fin 6) F
  singularValues : Fin 6 → F

/-- The state of the `blitzcrank_traj_control` process: the two flags read at startup,
the held message `joint_vel_msg`, and the messages published so far on `traj_pub` and
`joint_vel_pub` (oldest first). -/
@[ext]
structure ControlNode (F : Type) where
  gazebo : Bool
  debug : Bool
  joint_vel_msg : JointVelocity F
  traj_pub : List (JointTrajectory F)
  joint_vel_pub : List (JointVelocity F)

section IK

variable {F : Type} [Field F]

/-- The constant `DURATION = 0.5`. -/
def DURATION : F := 0.5

/-- The method `MatrixXd::inverse()` of Eigen over exact arithmetic: the reciprocal of the
determinant times the adjugate, which is the inverse of every invertible matrix. On a
singular matrix the C++ divides by zero and produces infinities or NaN, which exact
arithmetic cannot express; the value of this definition there carries no meaning, and every
statement below that depends on the value of an inverse assumes non-zero singular values. -/
def inverse {k : ℕ} (a : Matrix (Fin k) (Fin k) F) : Matrix (Fin k) (Fin k) F :=
  a.det⁻¹ • a.adjugate

/-- The function `pseudoInverse`: `v_matrix * s_diagonals.inverse() * u_matrix.transpose()`. -/
def pseudoInverse {m n k : ℕ} (u_matrix : Matrix (Fin m) (Fin k) F)
    (v_matrix : Matrix (Fin n) (Fin k) F) (s_diagonals : Matrix (Fin k) (Fin k) F) :
    Matrix (Fin n) (Fin m) F :=
  v_matrix * inverse s_diagonals * u_matrix.transpose

/-- Lines 41-47: the vector `eef_vel` filled from the twist. -/
def eef_vel (msg : Twist F) : Fin 6 → F :=
  ![msg.linear.x, msg.linear.y, msg.linear.z, msg.angular.x, msg.angular.y, msg.angular.z]

/-- Lines 52-54: `delta_theta`, for the decomposition `svd` of the Jacobian. -/
def delta_theta (svd : JacobiSVD F) (msg : Twist F) : Fin 6 → F :=
  (pseudoInverse svd.matrixU svd.matrixV (Matrix.diagonal svd.singularValues)).mulVec
    (eef_vel msg)

/-- One iteration of the loop of lines 69-76, for the index `i`. -/
def pointStep (joint_values delta : Fin 6 → F) (point : JointTrajectoryPoint F) (i : Fin 6) :
    JointTrajectoryPoint F :=
  { positions := point.positions ++ [joint_values i + delta i]
    velocities := point.velocities ++ [0]
    accelerations := point.accelerations ++ [0]
    effort := point.effort ++ [0]
    time_from_start := DURATION }

/-- A default-constructed `JointTrajectoryPoint`. -/
def JointTrajectoryPoint.empty : JointTrajectoryPoint F := ⟨[], [], [], [], 0⟩

/-- The loop `for(int i = 0; i < 6; i++)` of lines 69-76. -/
def trajectoryPoint (joint_values delta : Fin 6 → F) : JointTrajectoryPoint F :=
  (List.finRange 6).foldl (pointStep joint_values delta) JointTrajectoryPoint.empty

/-- The subscriber callback `setTrajectoryFromVelocity`. The decomposition routine `svd`,
the variable names of the joint group and the current time are taken as parameters. -/
def setTrajectoryFromVelocity (svd : Matrix (Fin 6) (Fin 6) F → JacobiSVD F)
    (joint_names : List String) (now : Nat) (kinematic_state : RobotState F) (msg : Twist F)
    (node : ControlNode F) : ControlNode F :=
  let jacobian := kinematic_state.jacobian
  let delta := delta_theta (svd jacobian) msg
  if node.gazebo then
    let joint_values := kinematic_state.joint_values
    let point := trajectoryPoint joint_values delta
    let traj_msg : JointTrajectory F := ⟨now, joint_names, [point]⟩
    { node with traj_pub := node.traj_pub ++ [traj_msg] }
  else
    if !node.debug then
      { node with
        joint_vel_msg := ⟨delta 0, delta 1, delta 2, delta 3, delta 4, delta 5⟩ }
    else node

/-- The timer callback `send_kinova_joint_vels`. -/
def send_kinova_joint_vels (node : ControlNode F) : ControlNode F :=
  if !node.gazebo then { node with joint_vel_pub := node.joint_vel_pub ++ [node.joint_vel_msg] }
  else node

/-- A decomposition routine used for concrete evaluations: U = V = 1 and all six singular
values equal to 2 (the thin decomposition of the Jacobian `2 * 1`). -/
def exampleSVD : Matrix (Fin 6) (Fin 6) ℚ → JacobiSVD ℚ := fun _ => ⟨1, 1, fun _ => 2⟩

end IK

/-! ## Theorems: the error transform -/

section ErrorTransform

variable {F : Type} [Field F]

theorem setRotation_identity : Matrix3x3.setRotation (Quaternion.identity : Quaternion F) =
    Matrix3x3.identity := by
  simp [Matrix3x3.setRotation, Quaternion.identity, Matrix3x3.identity, Quaternion.length2]

theorem setRotation_mulVec_of_unit (q : Quaternion F) (v : Vector3 F) (h : q.length2 = 1) :
    (Matrix3x3.setRotation q).mulVec v = rotate q v := by
  have h1 : q.w * q.w = 1 - q.x * q.x - q.y * q.y - q.z * q.z := by
    unfold Quaternion.length2 at h
    linear_combination h
  ext <;>
    simp only [Matrix3x3.setRotation, Matrix3x3.mulVec, Vector3.dot, rotate, Quaternion.mul,
      Quaternion.conj, h, div_one]
  · linear_combination (-v.x) * h1
  · linear_combination (-v.y) * h1
  · linear_combination (-v.z) * h1

theorem errorTf_basis (vision marker target : TransformMsg F) :
    (errorTf vision marker target).m_basis = Matrix3x3.identity := by
  simp [errorTf, Transform.inverseTimes, Transform.setRotation, setRotation_identity,
    Matrix3x3.transposeTimes, Matrix3x3.identity]

theorem errorTf_origin (vision marker target : TransformMsg F) :
    (errorTf vision marker target).m_origin =
      target.translation.sub (vision.translation.add
        ((Matrix3x3.setRotation vision.rotation).mulVec marker.translation)) := by
  simp [errorTf, Transform.inverseTimes, Transform.setRotation, setRotation_identity,
    Matrix3x3.vecMul, Matrix3x3.identity, Matrix3x3.tdotx, Matrix3x3.tdoty, Matrix3x3.tdotz,
    Transform.mulAssign, transformStampedMsgToTF, Vector3.sub, Vector3.add]

/-- C3: for a vision transform with unit-quaternion rotation, the error transform computed
before scaling has identity rotation and translation `t_g - (t_v + R_v * t_m)`; it is the
inverse of the rotation-discarded composition of vision and offset applied to the
rotation-discarded target, and it depends neither on the rotation of the target nor on
the rotation of the marker-to-end-effector transform. -/
theorem errorTf_translation_only (vision marker target : TransformMsg F)
    (hunit : vision.rotation.length2 = 1) :
    (errorTf vision marker target).m_basis = Matrix3x3.identity ∧
    (errorTf vision marker target).m_origin =
      target.translation.sub
        (vision.translation.add (rotate vision.rotation marker.translation)) ∧
    errorTf vision marker target = errorTfSpec vision marker target ∧
    ∀ qm qg : Quaternion F,
      errorTf vision ⟨marker.translation, qm⟩ ⟨target.translation, qg⟩ =
        errorTf vision marker target := by
  refine ⟨errorTf_basis _ _ _, ?_, ?_, ?_⟩
  · rw [errorTf_origin, setRotation_mulVec_of_unit _ _ hunit]
  · apply Transform.ext
    · rw [errorTf_basis]
      simp [errorTfSpec, Transform.mul, Transform.inverse, Transform.setRotation,
        setRotation_identity, Matrix3x3.mul, Matrix3x3.transpose, Matrix3x3.identity,
        Matrix3x3.tdotx, Matrix3x3.tdoty, Matrix3x3.tdotz]
    · rw [errorTf_origin]
      ext <;>
        simp [errorTfSpec, Transform.mul, Transform.inverse, Transform.setRotation,
          setRotation_identity, Matrix3x3.transpose, Matrix3x3.identity, Transform.apply,
          Matrix3x3.mulVec, Vector3.dot, Vector3.neg, Vector3.sub, Vector3.add,
          transformStampedMsgToTF] <;>
        ring
  · intro qm qg
    apply Transform.ext
    · rw [errorTf_basis, errorTf_basis]
    · rw [errorTf_origin, errorTf_origin]

/-- Witness for C3: vision at (1, 2, 3) turned half a turn about x, offset (1, 1, 1),
target (5, 5, 5): the error transform is the pure translation (3, 4, 3). -/
theorem errorTf_translation_only_witness :
    (⟨1, 0, 0, 0⟩ : Quaternion ℚ).length2 = 1 ∧
    (errorTf (⟨⟨1, 2, 3⟩, ⟨1, 0, 0, 0⟩⟩ : TransformMsg ℚ) ⟨⟨1, 1, 1⟩, ⟨0, 1, 0, 0⟩⟩
      ⟨⟨5, 5, 5⟩, ⟨0, 0, 1, 0⟩⟩).m_basis = Matrix3x3.identity ∧
    (errorTf (⟨⟨1, 2, 3⟩, ⟨1, 0, 0, 0⟩⟩ : TransformMsg ℚ) ⟨⟨1, 1, 1⟩, ⟨0, 1, 0, 0⟩⟩
      ⟨⟨5, 5, 5⟩, ⟨0, 0, 1, 0⟩⟩).m_origin = ⟨3, 4, 3⟩ := by
  have h := errorTf_translation_only (⟨⟨1, 2, 3⟩, ⟨1, 0, 0, 0⟩⟩ : TransformMsg ℚ)
    ⟨⟨1, 1, 1⟩, ⟨0, 1, 0, 0⟩⟩ ⟨⟨5, 5, 5⟩, ⟨0, 0, 1, 0⟩⟩ (by norm_num [Quaternion.length2])
  refine ⟨by norm_num [Quaternion.length2], h.1, ?_⟩
  rw [h.2.1]
  norm_num [rotate, Quaternion.mul, Quaternion.conj, Vector3.sub, Vector3.add]

end ErrorTransform

/-! ## Theorems: scaling and the speed cap -/

section SpeedCap

theorem servoTwist_linear_of_gt {F : Type} [LinearOrderedField F] (sqrt : F → F) (K cap : F)
    (vision marker target : TransformMsg F)
    (h : cap < magnitude sqrt target.translation) :
    (servoTwist sqrt K cap vision marker target).linear =
      ⟨(errorTf vision marker target).m_origin.x * K / magnitude sqrt target.translation * cap,
       (errorTf vision marker target).m_origin.y * K / magnitude sqrt target.translation * cap,
       (errorTf vision marker target).m_origin.z * K / magnitude sqrt target.translation * cap⟩ := by
  simp [servoTwist, h]

theorem servoTwist_linear_of_le {F : Type} [LinearOrderedField F] (sqrt : F → F) (K cap : F)
    (vision marker target : TransformMsg F)
    (h : magnitude sqrt target.translation ≤ cap) :
    (servoTwist sqrt K cap vision marker target).linear =
      ⟨(errorTf vision marker target).m_origin.x * K,
       (errorTf vision marker target).m_origin.y * K,
       (errorTf vision marker target).m_origin.z * K⟩ := by
  simp [servoTwist, not_lt.mpr h]

theorem magnitude_nonneg (v : Vector3 ℝ) : 0 ≤ magnitude Real.sqrt v :=
  Real.sqrt_nonneg _

theorem magnitude_scale (v : Vector3 ℝ) (k : ℝ) :
    magnitude Real.sqrt ⟨v.x * k, v.y * k, v.z * k⟩ = |k| * magnitude Real.sqrt v := by
  unfold magnitude
  have h : (v.x * k) ^ 2 + (v.y * k) ^ 2 + (v.z * k) ^ 2 = k ^ 2 * (v.x ^ 2 + v.y ^ 2 + v.z ^ 2) := by
    ring
  simp only [h]
  rw [Real.sqrt_mul (sq_nonneg k), Real.sqrt_sq_eq_abs]

theorem magnitude_axis (a : ℝ) (h : 0 ≤ a) : magnitude Real.sqrt ⟨a, 0, 0⟩ = a := by
  simp [magnitude, Real.sqrt_sq h]

theorem errorTf_origin_identity {F : Type} [Field F] (tv tm tg : Vector3 F)
    (qm qg : Quaternion F) :
    (errorTf ⟨tv, ⟨0, 0, 0, 1⟩⟩ ⟨tm, qm⟩ ⟨tg, qg⟩).m_origin =
      ⟨tg.x - (tv.x + tm.x), tg.y - (tv.y + tm.y), tg.z - (tv.z + tm.z)⟩ := by
  rw [errorTf_origin]
  simp [Matrix3x3.setRotation, Quaternion.length2, Matrix3x3.mulVec, Vector3.dot, Vector3.sub,
    Vector3.add]

theorem servoTwist_clamped_magnitude (K cap : ℝ) (vision marker target : TransformMsg ℝ)
    (h : cap < magnitude Real.sqrt target.translation) :
    magnitude Real.sqrt (servoTwist Real.sqrt K cap vision marker target).linear =
      |cap| * |K| * magnitude Real.sqrt (errorTf vision marker target).m_origin /
        magnitude Real.sqrt target.translation := by
  rw [servoTwist_linear_of_gt _ _ _ _ _ _ h]
  have hv : (⟨(errorTf vision marker target).m_origin.x * K /
        magnitude Real.sqrt target.translation * cap,
      (errorTf vision marker target).m_origin.y * K /
        magnitude Real.sqrt target.translation * cap,
      (errorTf vision marker target).m_origin.z * K /
        magnitude Real.sqrt target.translation * cap⟩ : Vector3 ℝ) =
      ⟨(errorTf vision marker target).m_origin.x *
          (K * (cap / magnitude Real.sqrt target.translation)),
        (errorTf vision marker target).m_origin.y *
          (K * (cap / magnitude Real.sqrt target.translation)),
        (errorTf vision marker target).m_origin.z *
          (K * (cap / magnitude Real.sqrt target.translation))⟩ := by
    ext <;> simp only <;> ring
  rw [hv, magnitude_scale, abs_mul, abs_div,
    abs_of_nonneg (magnitude_nonneg target.translation)]
  ring

/-- C1 (defect of the code): at gain 1, cap 1, vision translation (1, 0, 0), zero offset
and target translation (2, 0, 0), the target magnitude 2 exceeds the cap, yet the emitted
linear velocity is (1/2, 0, 0): its magnitude is 1/2, not the cap. -/
theorem servoTwist_clamp_misses_cap :
    (1 : ℝ) < magnitude Real.sqrt (⟨2, 0, 0⟩ : Vector3 ℝ) ∧
    (servoTwist Real.sqrt 1 1 ⟨⟨1, 0, 0⟩, ⟨0, 0, 0, 1⟩⟩ ⟨⟨0, 0, 0⟩, ⟨0, 0, 0, 1⟩⟩
      ⟨⟨2, 0, 0⟩, ⟨0, 0, 0, 1⟩⟩).linear = ⟨1 / 2, 0, 0⟩ ∧
    magnitude Real.sqrt (servoTwist Real.sqrt 1 1 ⟨⟨1, 0, 0⟩, ⟨0, 0, 0, 1⟩⟩
      ⟨⟨0, 0, 0⟩, ⟨0, 0, 0, 1⟩⟩ ⟨⟨2, 0, 0⟩, ⟨0, 0, 0, 1⟩⟩).linear = 1 / 2 ∧
    magnitude Real.sqrt (servoTwist Real.sqrt 1 1 ⟨⟨1, 0, 0⟩, ⟨0, 0, 0, 1⟩⟩
      ⟨⟨0, 0, 0⟩, ⟨0, 0, 0, 1⟩⟩ ⟨⟨2, 0, 0⟩, ⟨0, 0, 0, 1⟩⟩).linear ≠ 1 := by
  have hm : magnitude Real.sqrt (⟨2, 0, 0⟩ : Vector3 ℝ) = 2 := magnitude_axis 2 (by norm_num)
  have hl : (servoTwist Real.sqrt 1 1 ⟨⟨1, 0, 0⟩, ⟨0, 0, 0, 1⟩⟩ ⟨⟨0, 0, 0⟩, ⟨0, 0, 0, 1⟩⟩
      ⟨⟨2, 0, 0⟩, ⟨0, 0, 0, 1⟩⟩).linear = ⟨1 / 2, 0, 0⟩ := by
    rw [servoTwist_linear_of_gt _ _ _ _ _ _ (by rw [hm]; norm_num), errorTf_origin_identity]
    simp only [hm]
    norm_num
  have hmag : magnitude Real.sqrt (⟨1 / 2, 0, 0⟩ : Vector3 ℝ) = 1 / 2 :=
    magnitude_axis (1 / 2) (by norm_num)
  refine ⟨by rw [hm]; norm_num, hl, ?_, ?_⟩
  · rw [hl, hmag]
  · rw [hl, hmag]
    norm_num

/-- C2 as stated fails: at gain -1, cap 1, vision translation (1, 0, 0), zero offset and
target at the origin, the target magnitude is within the cap but the emitted magnitude is
not K times the magnitude of the error translation (that product is negative). -/
theorem servoTwist_unclamped_negative_gain :
    magnitude Real.sqrt (⟨0, 0, 0⟩ : Vector3 ℝ) ≤ 1 ∧
    magnitude Real.sqrt (servoTwist Real.sqrt (-1) 1 ⟨⟨1, 0, 0⟩, ⟨0, 0, 0, 1⟩⟩
      ⟨⟨0, 0, 0⟩, ⟨0, 0, 0, 1⟩⟩ ⟨⟨0, 0, 0⟩, ⟨0, 0, 0, 1⟩⟩).linear ≠
      (-1) * magnitude Real.sqrt (errorTf (⟨⟨1, 0, 0⟩, ⟨0, 0, 0, 1⟩⟩ : TransformMsg ℝ)
        ⟨⟨0, 0, 0⟩, ⟨0, 0, 0, 1⟩⟩ ⟨⟨0, 0, 0⟩, ⟨0, 0, 0, 1⟩⟩).m_origin := by
  have hm : magnitude Real.sqrt (⟨0, 0, 0⟩ : Vector3 ℝ) = 0 := magnitude_axis 0 le_rfl
  have he : magnitude Real.sqrt (errorTf (⟨⟨1, 0, 0⟩, ⟨0, 0, 0, 1⟩⟩ : TransformMsg ℝ)
      ⟨⟨0, 0, 0⟩, ⟨0, 0, 0, 1⟩⟩ ⟨⟨0, 0, 0⟩, ⟨0, 0, 0, 1⟩⟩).m_origin = 1 := by
    rw [errorTf_origin_identity]
    simp [magnitude]
  refine ⟨by rw [hm]; norm_num, ?_⟩
  rw [he]
  have := magnitude_nonneg (servoTwist Real.sqrt (-1) 1 ⟨⟨1, 0, 0⟩, ⟨0, 0, 0, 1⟩⟩
      ⟨⟨0, 0, 0⟩, ⟨0, 0, 0, 1⟩⟩ ⟨⟨0, 0, 0⟩, ⟨0, 0, 0, 1⟩⟩).linear
  intro hc
  rw [hc] at this
  norm_num at this

/-- C2 (amended): when the target translation has magnitude at most the speed cap, the
emitted linear velocity is K times the error translation component-wise, with no clamping,
so its magnitude is |K| times the magnitude of the error translation; for a non-negative
gain this is K times that magnitude. The angular part is zero. -/
theorem servoTwist_unclamped (K cap : ℝ) (vision marker target : TransformMsg ℝ)
    (h : magnitude Real.sqrt target.translation ≤ cap) :
    (servoTwist Real.sqrt K cap vision marker target).linear =
      ⟨K * (errorTf vision marker target).m_origin.x,
       K * (errorTf vision marker target).m_origin.y,
       K * (errorTf vision marker target).m_origin.z⟩ ∧
    magnitude Real.sqrt (servoTwist Real.sqrt K cap vision marker target).linear =
      |K| * magnitude Real.sqrt (errorTf vision marker target).m_origin ∧
    (0 ≤ K → magnitude Real.sqrt (servoTwist Real.sqrt K cap vision marker target).linear =
      K * magnitude Real.sqrt (errorTf vision marker target).m_origin) ∧
    (servoTwist Real.sqrt K cap vision marker target).angular = Vector3.zero := by
  have hl := servoTwist_linear_of_le Real.sqrt K cap vision marker target h
  have hmag : magnitude Real.sqrt (servoTwist Real.sqrt K cap vision marker target).linear =
      |K| * magnitude Real.sqrt (errorTf vision marker target).m_origin := by
    rw [hl, magnitude_scale]
  refine ⟨?_, hmag, ?_, rfl⟩
  · rw [hl]
    ext <;> simp only <;> ring
  · intro hK
    rw [hmag, abs_of_nonneg hK]

/-- Witness for C2, the scenario of the spec: K = 0.5, cap = 0.1, error translation
(0.4, 0, 0), target translation of magnitude 0.05: the output is (0.2, 0, 0). -/
theorem servoTwist_unclamped_witness :
    magnitude Real.sqrt (⟨1 / 20, 0, 0⟩ : Vector3 ℝ) ≤ 1 / 10 ∧
    (errorTf (⟨⟨-7 / 20, 0, 0⟩, ⟨0, 0, 0, 1⟩⟩ : TransformMsg ℝ) ⟨⟨0, 0, 0⟩, ⟨0, 0, 0, 1⟩⟩
      ⟨⟨1 / 20, 0, 0⟩, ⟨0, 0, 0, 1⟩⟩).m_origin = ⟨2 / 5, 0, 0⟩ ∧
    (servoTwist Real.sqrt (1 / 2) (1 / 10) ⟨⟨-7 / 20, 0, 0⟩, ⟨0, 0, 0, 1⟩⟩
      ⟨⟨0, 0, 0⟩, ⟨0, 0, 0, 1⟩⟩ ⟨⟨1 / 20, 0, 0⟩, ⟨0, 0, 0, 1⟩⟩).linear = ⟨1 / 5, 0, 0⟩ := by
  have hm : magnitude Real.sqrt (⟨1 / 20, 0, 0⟩ : Vector3 ℝ) = 1 / 20 :=
    magnitude_axis (1 / 20) (by norm_num)
  have he : (errorTf (⟨⟨-7 / 20, 0, 0⟩, ⟨0, 0, 0, 1⟩⟩ : TransformMsg ℝ)
      ⟨⟨0, 0, 0⟩, ⟨0, 0, 0, 1⟩⟩ ⟨⟨1 / 20, 0, 0⟩, ⟨0, 0, 0, 1⟩⟩).m_origin = ⟨2 / 5, 0, 0⟩ := by
    rw [errorTf_origin_identity]
    norm_num
  have h := (servoTwist_unclamped (1 / 2) (1 / 10) ⟨⟨-7 / 20, 0, 0⟩, ⟨0, 0, 0, 1⟩⟩
    ⟨⟨0, 0, 0⟩, ⟨0, 0, 0, 1⟩⟩ ⟨⟨1 / 20, 0, 0⟩, ⟨0, 0, 0, 1⟩⟩ (by rw [hm]; norm_num)).1
  refine ⟨by rw [hm]; norm_num, he, ?_⟩
  rw [h, he]
  norm_num

/-- C10 as stated fails for a negative cap: at cap -1, gain 1, vision and offset at the
origin and target translation (1, 0, 0), the target magnitude 1 exceeds the cap and the
emitted magnitude is not `c * |K| * |e| / m` (which is negative there). -/
theorem servoTwist_clamped_negative_cap :
    (-1 : ℝ) < magnitude Real.sqrt (⟨1, 0, 0⟩ : Vector3 ℝ) ∧
    magnitude Real.sqrt (servoTwist Real.sqrt 1 (-1) ⟨⟨0, 0, 0⟩, ⟨0, 0, 0, 1⟩⟩
      ⟨⟨0, 0, 0⟩, ⟨0, 0, 0, 1⟩⟩ ⟨⟨1, 0, 0⟩, ⟨0, 0, 0, 1⟩⟩).linear ≠
      (-1) * |(1 : ℝ)| * magnitude Real.sqrt (errorTf (⟨⟨0, 0, 0⟩, ⟨0, 0, 0, 1⟩⟩ : TransformMsg ℝ)
        ⟨⟨0, 0, 0⟩, ⟨0, 0, 0, 1⟩⟩ ⟨⟨1, 0, 0⟩, ⟨0, 0, 0, 1⟩⟩).m_origin /
        magnitude Real.sqrt (⟨1, 0, 0⟩ : Vector3 ℝ) := by
  have hm : magnitude Real.sqrt (⟨1, 0, 0⟩ : Vector3 ℝ) = 1 := magnitude_axis 1 (by norm_num)
  have he : (errorTf (⟨⟨0, 0, 0⟩, ⟨0, 0, 0, 1⟩⟩ : TransformMsg ℝ)
      ⟨⟨0, 0, 0⟩, ⟨0, 0, 0, 1⟩⟩ ⟨⟨1, 0, 0⟩, ⟨0, 0, 0, 1⟩⟩).m_origin = ⟨1, 0, 0⟩ := by
    rw [errorTf_origin_identity]
    norm_num
  refine ⟨by rw [hm]; norm_num, ?_⟩
  rw [he, hm]
  have := magnitude_nonneg (servoTwist Real.sqrt 1 (-1) ⟨⟨0, 0, 0⟩, ⟨0, 0, 0, 1⟩⟩
      ⟨⟨0, 0, 0⟩, ⟨0, 0, 0, 1⟩⟩ ⟨⟨1, 0, 0⟩, ⟨0, 0, 0, 1⟩⟩).linear
  intro hc
  rw [hc] at this
  norm_num at this

/-- C10 (amended): when the target translation has magnitude m strictly greater than the
speed cap c, then (under c >= 0) m is strictly positive, and whenever m is non-zero the
emitted linear velocity equals `K * e * (c / m)` component-wise, e the error translation,
with magnitude `|c| * |K| * |e| / m`; this is `c * |K| * |e| / m` when c >= 0. -/
theorem servoTwist_clamped (K cap : ℝ) (vision marker target : TransformMsg ℝ)
    (h : cap < magnitude Real.sqrt target.translation) :
    (0 ≤ cap → 0 < magnitude Real.sqrt target.translation) ∧
    (magnitude Real.sqrt target.translation ≠ 0 →
      (servoTwist Real.sqrt K cap vision marker target).linear =
        ⟨K * (errorTf vision marker target).m_origin.x *
            (cap / magnitude Real.sqrt target.translation),
         K * (errorTf vision marker target).m_origin.y *
            (cap / magnitude Real.sqrt target.translation),
         K * (errorTf vision marker target).m_origin.z *
            (cap / magnitude Real.sqrt target.translation)⟩ ∧
      magnitude Real.sqrt (servoTwist Real.sqrt K cap vision marker target).linear =
        |cap| * |K| * magnitude Real.sqrt (errorTf vision marker target).m_origin /
          magnitude Real.sqrt target.translation) ∧
    (0 ≤ cap →
      magnitude Real.sqrt (servoTwist Real.sqrt K cap vision marker target).linear =
        cap * |K| * magnitude Real.sqrt (errorTf vision marker target).m_origin /
          magnitude Real.sqrt target.translation) := by
  refine ⟨fun hc => lt_of_le_of_lt hc h, fun _ => ⟨?_, ?_⟩, fun hc => ?_⟩
  · rw [servoTwist_linear_of_gt _ _ _ _ _ _ h]
    ext <;> simp only <;> ring
  · exact servoTwist_clamped_magnitude K cap vision marker target h
  · rw [servoTwist_clamped_magnitude K cap vision marker target h, abs_of_nonneg hc]

/-- Witness for C10: gain 2, cap 1, vision and offset at the origin, target translation
(5, 0, 0) of magnitude 5: the emitted linear velocity is (2, 0, 0), of magnitude 2. -/
theorem servoTwist_clamped_witness :
    (1 : ℝ) < magnitude Real.sqrt (⟨5, 0, 0⟩ : Vector3 ℝ) ∧
    (servoTwist Real.sqrt 2 1 ⟨⟨0, 0, 0⟩, ⟨0, 0, 0, 1⟩⟩ ⟨⟨0, 0, 0⟩, ⟨0, 0, 0, 1⟩⟩
      ⟨⟨5, 0, 0⟩, ⟨0, 0, 0, 1⟩⟩).linear = ⟨2, 0, 0⟩ ∧
    magnitude Real.sqrt (servoTwist Real.sqrt 2 1 ⟨⟨0, 0, 0⟩, ⟨0, 0, 0, 1⟩⟩
      ⟨⟨0, 0, 0⟩, ⟨0, 0, 0, 1⟩⟩ ⟨⟨5, 0, 0⟩, ⟨0, 0, 0, 1⟩⟩).linear = 2 := by
  have hm : magnitude Real.sqrt (⟨5, 0, 0⟩ : Vector3 ℝ) = 5 := magnitude_axis 5 (by norm_num)
  have he : (errorTf (⟨⟨0, 0, 0⟩, ⟨0, 0, 0, 1⟩⟩ : TransformMsg ℝ)
      ⟨⟨0, 0, 0⟩, ⟨0, 0, 0, 1⟩⟩ ⟨⟨5, 0, 0⟩, ⟨0, 0, 0, 1⟩⟩).m_origin = ⟨5, 0, 0⟩ := by
    rw [errorTf_origin_identity]
    norm_num
  have h := servoTwist_clamped 2 1 ⟨⟨0, 0, 0⟩, ⟨0, 0, 0, 1⟩⟩ ⟨⟨0, 0, 0⟩, ⟨0, 0, 0, 1⟩⟩
    ⟨⟨5, 0, 0⟩, ⟨0, 0, 0, 1⟩⟩ (by rw [hm]; norm_num)
  have h2 := h.2.1 (by rw [hm]; norm_num)
  refine ⟨by rw [hm]; norm_num, ?_, ?_⟩
  · rw [h2.1, he, hm]
    norm_num
  · rw [h2.2, he, hm]
    norm_num

end SpeedCap

/-! ## Theorems: failed lookups -/

section Fatal

variable {F : Type} [LinearOrderedField F]

theorem spin_of_shutdown (sqrt : F → F) (K cap : F)
    (cycles : List (Except String (TransformMsg F) × Except String (TransformMsg F) ×
      Except String (TransformMsg F))) (node : ServoNode F) (h : node.shutdown = true) :
    spin sqrt K cap cycles node = node := by
  cases cycles with
  | nil => rfl
  | cons c rest =>
    obtain ⟨a, b, c⟩ := c
    simp [spin, h]

theorem lookups_error_of_failed {T : Type} (vision marker target : Except String (TransformMsg T))
    (h : (∃ e, vision = .error e) ∨ (∃ e, marker = .error e) ∨ (∃ e, target = .error e)) :
    ∃ e, lookups vision marker target = .error e := by
  cases vision with
  | error e => exact ⟨e, rfl⟩
  | ok v =>
    cases marker with
    | error e => exact ⟨e, rfl⟩
    | ok m =>
      cases target with
      | error e => exact ⟨e, rfl⟩
      | ok t =>
        rcases h with ⟨e, h⟩ | ⟨e, h⟩ | ⟨e, h⟩ <;> cases h

/-- C9: if any of the three lookups of a cycle fails, that cycle publishes no command and
requests shutdown, and no later cycle publishes a command; if all three succeed, the cycle
publishes exactly one command (the twist computed from the three transforms). -/
theorem visual_servo_fatal_on_missing_transform (sqrt : F → F) (K cap : F)
    (vision marker target : Except String (TransformMsg F)) (node : ServoNode F)
    (later : List (Except String (TransformMsg F) × Except String (TransformMsg F) ×
      Except String (TransformMsg F))) :
    ((∃ e, vision = .error e) ∨ (∃ e, marker = .error e) ∨ (∃ e, target = .error e) →
      (visual_servo sqrt K cap vision marker target node).vel_pub = node.vel_pub ∧
      (visual_servo sqrt K cap vision marker target node).shutdown = true ∧
      (spin sqrt K cap later (visual_servo sqrt K cap vision marker target node)).vel_pub =
        node.vel_pub ∧
      (node.shutdown = false →
        (spin sqrt K cap ((vision, marker, target) :: later) node).vel_pub = node.vel_pub)) ∧
    (∀ v m t, vision = .ok v → marker = .ok m → target = .ok t →
      (visual_servo sqrt K cap vision marker target node).vel_pub =
        node.vel_pub ++ [servoTwist sqrt K cap v m t] ∧
      (visual_servo sqrt K cap vision marker target node).shutdown = node.shutdown) := by
  constructor
  · intro h
    obtain ⟨e, he⟩ := lookups_error_of_failed vision marker target h
    have hv : visual_servo sqrt K cap vision marker target node =
        { node with shutdown := true } := by
      simp [visual_servo, he]
    have hs : spin sqrt K cap later (visual_servo sqrt K cap vision marker target node) =
        visual_servo sqrt K cap vision marker target node :=
      spin_of_shutdown _ _ _ _ _ (by rw [hv])
    refine ⟨by rw [hv], by rw [hv], by rw [hs, hv], fun hn => ?_⟩
    simp only [spin, hn, Bool.false_eq_true, if_false]
    rw [hs, hv]
  · rintro v m t rfl rfl rfl
    simp [visual_servo, lookups, bind, Except.bind, pure, Except.pure]

/-- Witness for C9: the target lookup of the first cycle fails and the two later cycles
would succeed; nothing is ever published. In a cycle whose lookups all succeed one twist
is published. -/
theorem visual_servo_fatal_on_missing_transform_witness :
    (spin (fun x : ℚ => x) 1 1
      [(.ok ⟨⟨1, 0, 0⟩, ⟨0, 0, 0, 1⟩⟩, .ok ⟨⟨0, 0, 0⟩, ⟨0, 0, 0, 1⟩⟩, .error "timeout"),
       (.ok ⟨⟨1, 0, 0⟩, ⟨0, 0, 0, 1⟩⟩, .ok ⟨⟨0, 0, 0⟩, ⟨0, 0, 0, 1⟩⟩,
        .ok ⟨⟨2, 0, 0⟩, ⟨0, 0, 0, 1⟩⟩),
       (.ok ⟨⟨1, 0, 0⟩, ⟨0, 0, 0, 1⟩⟩, .ok ⟨⟨0, 0, 0⟩, ⟨0, 0, 0, 1⟩⟩,
        .ok ⟨⟨2, 0, 0⟩, ⟨0, 0, 0, 1⟩⟩)] ⟨[], false⟩).vel_pub = [] ∧
    (visual_servo (fun x : ℚ => x) 1 1 (.ok ⟨⟨1, 0, 0⟩, ⟨0, 0, 0, 1⟩⟩)
      (.ok ⟨⟨0, 0, 0⟩, ⟨0, 0, 0, 1⟩⟩) (.ok ⟨⟨2, 0, 0⟩, ⟨0, 0, 0, 1⟩⟩) ⟨[], false⟩).vel_pub =
      [servoTwist (fun x : ℚ => x) 1 1 ⟨⟨1, 0, 0⟩, ⟨0, 0, 0, 1⟩⟩ ⟨⟨0, 0, 0⟩, ⟨0, 0, 0, 1⟩⟩
        ⟨⟨2, 0, 0⟩, ⟨0, 0, 0, 1⟩⟩] :=
  ⟨((visual_servo_fatal_on_missing_transform (fun x : ℚ => x) 1 1 _ _ _ ⟨[], false⟩ _).1
      (Or.inr (Or.inr ⟨"timeout", rfl⟩))).2.2.2 rfl,
   ((visual_servo_fatal_on_missing_transform (fun x : ℚ => x) 1 1 _ _ _ ⟨[], false⟩ []).2
      _ _ _ rfl rfl rfl).1⟩

end Fatal

/-! ## Theorems: pseudo-inverse and dispatch -/

section Dispatch

variable {F : Type} [Field F]

theorem inverse_eq_inv {k : ℕ} (a : Matrix (Fin k) (Fin k) F) : inverse a = a⁻¹ := by
  simp [inverse, Matrix.inv_def]

theorem diagonal_mul_inverse {k : ℕ} (σ : Fin k → F) (h : ∀ i, σ i ≠ 0) :
    Matrix.diagonal σ * inverse (Matrix.diagonal σ) = 1 := by
  rw [inverse_eq_inv]
  apply Matrix.mul_nonsing_inv
  rw [Matrix.det_diagonal, isUnit_iff_ne_zero]
  exact Finset.prod_ne_zero_iff.mpr (fun i _ => h i)

/-- C4: for a thin decomposition J = U * S * V^T with orthonormal columns in U and V and S
diagonal with non-zero diagonal entries, `J * pseudoInverse(U, V, S) * J = J`, and for
every Cartesian velocity v in the range of J, `J * (pseudoInverse(U, V, S) * v) = v`. -/
theorem pseudoInverse_round_trip {m n k : ℕ} (U : Matrix (Fin m) (Fin k) F)
    (V : Matrix (Fin n) (Fin k) F) (σ : Fin k → F)
    (hU : U.transpose * U = 1) (hV : V.transpose * V = 1) (hσ : ∀ i, σ i ≠ 0) :
    (U * Matrix.diagonal σ * V.transpose) * pseudoInverse U V (Matrix.diagonal σ) *
        (U * Matrix.diagonal σ * V.transpose) = U * Matrix.diagonal σ * V.transpose ∧
    ∀ v : Fin m → F, (∃ w, v = (U * Matrix.diagonal σ * V.transpose).mulVec w) →
      (U * Matrix.diagonal σ * V.transpose).mulVec
        ((pseudoInverse U V (Matrix.diagonal σ)).mulVec v) = v := by
  have hS := diagonal_mul_inverse σ hσ
  have key : (U * Matrix.diagonal σ * V.transpose) * pseudoInverse U V (Matrix.diagonal σ) *
      (U * Matrix.diagonal σ * V.transpose) = U * Matrix.diagonal σ * V.transpose := by
    unfold pseudoInverse
    calc U * Matrix.diagonal σ * V.transpose * (V * inverse (Matrix.diagonal σ) * U.transpose) *
          (U * Matrix.diagonal σ * V.transpose)
        = U * (Matrix.diagonal σ * (V.transpose * V) * inverse (Matrix.diagonal σ)) *
            (U.transpose * U) * Matrix.diagonal σ * V.transpose := by
          simp only [Matrix.mul_assoc]
      _ = U * Matrix.diagonal σ * V.transpose := by
          rw [hV, hU, Matrix.mul_one, Matrix.mul_one, hS, Matrix.mul_one]
  refine ⟨key, ?_⟩
  rintro v ⟨w, rfl⟩
  rw [Matrix.mulVec_mulVec, Matrix.mulVec_mulVec, key]

/-- Witness for C4: U the 2 x 2 swap matrix, V the identity, singular values 2 and 3. -/
theorem pseudoInverse_round_trip_witness :
    ((!![0, 1; 1, 0] : Matrix (Fin 2) (Fin 2) ℚ).transpose * !![0, 1; 1, 0] = 1 ∧
      (1 : Matrix (Fin 2) (Fin 2) ℚ).transpose * 1 = 1 ∧ ∀ i, (![2, 3] : Fin 2 → ℚ) i ≠ 0) ∧
    ((!![0, 1; 1, 0] : Matrix (Fin 2) (Fin 2) ℚ) * Matrix.diagonal ![2, 3] *
        (1 : Matrix (Fin 2) (Fin 2) ℚ).transpose) *
        pseudoInverse !![0, 1; 1, 0] 1 (Matrix.diagonal ![2, 3]) *
        (!![0, 1; 1, 0] * Matrix.diagonal ![2, 3] * (1 : Matrix (Fin 2) (Fin 2) ℚ).transpose) =
      !![0, 1; 1, 0] * Matrix.diagonal ![2, 3] * (1 : Matrix (Fin 2) (Fin 2) ℚ).transpose := by
  have hU : (!![0, 1; 1, 0] : Matrix (Fin 2) (Fin 2) ℚ).transpose * !![0, 1; 1, 0] = 1 := by
    ext i j
    rw [Matrix.mul_apply, Fin.sum_univ_two]
    simp only [Matrix.transpose_apply]
    fin_cases i <;> fin_cases j <;> simp
  have hV : (1 : Matrix (Fin 2) (Fin 2) ℚ).transpose * 1 = 1 := by simp
  have hσ : ∀ i, (![2, 3] : Fin 2 → ℚ) i ≠ 0 := by
    intro i
    fin_cases i <;> simp
  exact ⟨⟨hU, hV, hσ⟩, (pseudoInverse_round_trip _ _ _ hU hV hσ).1⟩

theorem inv_diagonal_of_ne_zero {k : ℕ} (σ : Fin k → F) (h : ∀ i, σ i ≠ 0) :
    (Matrix.diagonal σ)⁻¹ = Matrix.diagonal (fun i => (σ i)⁻¹) := by
  apply Matrix.inv_eq_right_inv
  rw [Matrix.diagonal_mul_diagonal]
  have : (fun i => σ i * (σ i)⁻¹) = fun _ => (1 : F) := by
    funext i
    exact mul_inv_cancel₀ (h i)
  rw [this, Matrix.diagonal_one]

theorem delta_theta_eq (svd : JacobiSVD F) (msg : Twist F)
    (hσ : ∀ i, svd.singularValues i ≠ 0) :
    delta_theta svd msg =
      (svd.matrixV * Matrix.diagonal (fun i => (svd.singularValues i)⁻¹) *
        svd.matrixU.transpose).mulVec
        ![msg.linear.x, msg.linear.y, msg.linear.z, msg.angular.x, msg.angular.y,
          msg.angular.z] := by
  simp [delta_theta, pseudoInverse, inverse_eq_inv, eef_vel, inv_diagonal_of_ne_zero _ hσ]

theorem diagonal_mul_reciprocal {k : ℕ} (σ : Fin k → F) (h : ∀ i, σ i ≠ 0) :
    Matrix.diagonal σ * Matrix.diagonal (fun i => (σ i)⁻¹) = 1 := by
  rw [← inv_diagonal_of_ne_zero σ h, ← inverse_eq_inv]
  exact diagonal_mul_inverse σ h

theorem trajectoryPoint_eq (q d : Fin 6 → F) :
    trajectoryPoint q d =
      ⟨[q 0 + d 0, q 1 + d 1, q 2 + d 2, q 3 + d 3, q 4 + d 4, q 5 + d 5],
       [0, 0, 0, 0, 0, 0], [0, 0, 0, 0, 0, 0], [0, 0, 0, 0, 0, 0], DURATION⟩ := by
  rfl

/-- C5: in hardware mode with the debug flag set, `setTrajectoryFromVelocity` leaves the
whole node state unchanged: the held vector keeps its six components and nothing is
published; a subsequent broadcast tick then emits exactly the held vector. -/
theorem debug_freeze (svd : Matrix (Fin 6) (Fin 6) F → JacobiSVD F) (joint_names : List String)
    (now : Nat) (kinematic_state : RobotState F) (msg : Twist F) (node : ControlNode F)
    (hg : node.gazebo = false) (hd : node.debug = true) :
    setTrajectoryFromVelocity svd joint_names now kinematic_state msg node = node ∧
    (setTrajectoryFromVelocity svd joint_names now kinematic_state msg node).joint_vel_msg =
      node.joint_vel_msg ∧
    (setTrajectoryFromVelocity svd joint_names now kinematic_state msg node).traj_pub =
      node.traj_pub ∧
    (setTrajectoryFromVelocity svd joint_names now kinematic_state msg node).joint_vel_pub =
      node.joint_vel_pub ∧
    (send_kinova_joint_vels
      (setTrajectoryFromVelocity svd joint_names now kinematic_state msg node)).joint_vel_pub =
      node.joint_vel_pub ++ [node.joint_vel_msg] := by
  have h : setTrajectoryFromVelocity svd joint_names now kinematic_state msg node = node := by
    simp [setTrajectoryFromVelocity, hg, hd]
  rw [h]
  refine ⟨rfl, rfl, rfl, rfl, ?_⟩
  simp [send_kinova_joint_vels, hg]

/-- Witness for C5: a hardware-mode node in debug mode holding (9, 9, 9, 9, 9, 9) is left
as it is by a velocity command. -/
theorem debug_freeze_witness :
    setTrajectoryFromVelocity exampleSVD [] 0
      ⟨Matrix.diagonal (fun _ => 2), fun _ => 1⟩ ⟨⟨1, 0, 0⟩, ⟨0, 0, 0⟩⟩
      ⟨false, true, ⟨9, 9, 9, 9, 9, 9⟩, [], []⟩ =
    ⟨false, true, ⟨9, 9, 9, 9, 9, 9⟩, [], []⟩ :=
  (debug_freeze exampleSVD [] 0
    ⟨Matrix.diagonal (fun _ => 2), fun _ => 1⟩ ⟨⟨1, 0, 0⟩, ⟨0, 0, 0⟩⟩
    ⟨false, true, ⟨9, 9, 9, 9, 9, 9⟩, [], []⟩ rfl rfl).1

/-- C6: in hardware mode without debug, for a decomposition whose singular values are all
non-zero (so that S^-1, the diagonal matrix of their reciprocals, is the inverse of S),
after `setTrajectoryFromVelocity` the held vector has joint1..joint6 equal to components
0..5 of JointDelta = V * S^-1 * U^T * v, whatever the vector held before, and nothing is
published on either sink. -/
theorem hardware_dispatch (svd : Matrix (Fin 6) (Fin 6) F → JacobiSVD F)
    (joint_names : List String) (now : Nat) (kinematic_state : RobotState F) (msg : Twist F)
    (node : ControlNode F) (hg : node.gazebo = false) (hd : node.debug = false)
    (hσ : ∀ i, (svd kinematic_state.jacobian).singularValues i ≠ 0) :
    Matrix.diagonal (svd kinematic_state.jacobian).singularValues *
      Matrix.diagonal (fun i => ((svd kinematic_state.jacobian).singularValues i)⁻¹) = 1 ∧
    delta_theta (svd kinematic_state.jacobian) msg =
      ((svd kinematic_state.jacobian).matrixV *
        Matrix.diagonal (fun i => ((svd kinematic_state.jacobian).singularValues i)⁻¹) *
        (svd kinematic_state.jacobian).matrixU.transpose).mulVec
        ![msg.linear.x, msg.linear.y, msg.linear.z, msg.angular.x, msg.angular.y,
          msg.angular.z] ∧
    (setTrajectoryFromVelocity svd joint_names now kinematic_state msg node).joint_vel_msg =
      ⟨delta_theta (svd kinematic_state.jacobian) msg 0,
       delta_theta (svd kinematic_state.jacobian) msg 1,
       delta_theta (svd kinematic_state.jacobian) msg 2,
       delta_theta (svd kinematic_state.jacobian) msg 3,
       delta_theta (svd kinematic_state.jacobian) msg 4,
       delta_theta (svd kinematic_state.jacobian) msg 5⟩ ∧
    (setTrajectoryFromVelocity svd joint_names now kinematic_state msg node).traj_pub =
      node.traj_pub ∧
    (setTrajectoryFromVelocity svd joint_names now kinematic_state msg node).joint_vel_pub =
      node.joint_vel_pub ∧
    ∀ held : JointVelocity F,
      (setTrajectoryFromVelocity svd joint_names now kinematic_state msg
        { node with joint_vel_msg := held }).joint_vel_msg =
      (setTrajectoryFromVelocity svd joint_names now kinematic_state msg node).joint_vel_msg := by
  refine ⟨diagonal_mul_reciprocal _ hσ, delta_theta_eq _ _ hσ, ?_, ?_, ?_, ?_⟩ <;>
    simp [setTrajectoryFromVelocity, hg, hd]

/-- Witness for C6: with U = V = 1 and all singular values 2, the command (1, 0, 0, 0, 0, 0)
replaces the held vector (9, 9, 9, 9, 9, 9) by (1/2, 0, 0, 0, 0, 0). -/
theorem hardware_dispatch_witness :
    (∀ i, (exampleSVD (Matrix.diagonal (fun _ => 2))).singularValues i ≠ 0) ∧
    (setTrajectoryFromVelocity exampleSVD [] 0
      ⟨Matrix.diagonal (fun _ => 2), fun _ => 1⟩ ⟨⟨1, 0, 0⟩, ⟨0, 0, 0⟩⟩
      ⟨false, false, ⟨9, 9, 9, 9, 9, 9⟩, [], []⟩).joint_vel_msg =
    ⟨1 / 2, 0, 0, 0, 0, 0⟩ := by
  have hσ : ∀ i, (exampleSVD (Matrix.diagonal (fun _ => 2))).singularValues i ≠ 0 := by
    intro i
    simp [exampleSVD]
  have h := hardware_dispatch exampleSVD [] 0
    ⟨Matrix.diagonal (fun _ => 2), fun _ => 1⟩ ⟨⟨1, 0, 0⟩, ⟨0, 0, 0⟩⟩
    ⟨false, false, ⟨9, 9, 9, 9, 9, 9⟩, [], []⟩ rfl rfl hσ
  refine ⟨hσ, h.2.2.1.trans ?_⟩
  rw [h.2.1]
  simp only [exampleSVD]
  simp [Matrix.mulVec_diagonal]
  rfl

/-- C7: in simulation mode, for a decomposition whose singular values are all non-zero (so
that S^-1, the diagonal matrix of their reciprocals, is the inverse of S),
`setTrajectoryFromVelocity` sends exactly one trajectory with exactly one waypoint, whose
positions are q[i] + JointDelta[i] for i = 0..5 in joint order, JointDelta being
V * S^-1 * U^T * v, whose velocities, accelerations and efforts are six zeros each and
whose time-to-reach is 0.5; the held vector and the velocity sink are left unchanged. -/
theorem simulation_dispatch (svd : Matrix (Fin 6) (Fin 6) F → JacobiSVD F)
    (joint_names : List String) (now : Nat) (kinematic_state : RobotState F) (msg : Twist F)
    (node : ControlNode F) (hg : node.gazebo = true)
    (hσ : ∀ i, (svd kinematic_state.jacobian).singularValues i ≠ 0) :
    Matrix.diagonal (svd kinematic_state.jacobian).singularValues *
      Matrix.diagonal (fun i => ((svd kinematic_state.jacobian).singularValues i)⁻¹) = 1 ∧
    delta_theta (svd kinematic_state.jacobian) msg =
      ((svd kinematic_state.jacobian).matrixV *
        Matrix.diagonal (fun i => ((svd kinematic_state.jacobian).singularValues i)⁻¹) *
        (svd kinematic_state.jacobian).matrixU.transpose).mulVec
        ![msg.linear.x, msg.linear.y, msg.linear.z, msg.angular.x, msg.angular.y,
          msg.angular.z] ∧
    (setTrajectoryFromVelocity svd joint_names now kinematic_state msg node).traj_pub =
      node.traj_pub ++
        [⟨now, joint_names,
          [⟨[kinematic_state.joint_values 0 + delta_theta (svd kinematic_state.jacobian) msg 0,
             kinematic_state.joint_values 1 + delta_theta (svd kinematic_state.jacobian) msg 1,
             kinematic_state.joint_values 2 + delta_theta (svd kinematic_state.jacobian) msg 2,
             kinematic_state.joint_values 3 + delta_theta (svd kinematic_state.jacobian) msg 3,
             kinematic_state.joint_values 4 + delta_theta (svd kinematic_state.jacobian) msg 4,
             kinematic_state.joint_values 5 + delta_theta (svd kinematic_state.jacobian) msg 5],
            [0, 0, 0, 0, 0, 0], [0, 0, 0, 0, 0, 0], [0, 0, 0, 0, 0, 0], 0.5⟩]⟩] ∧
    (setTrajectoryFromVelocity svd joint_names now kinematic_state msg node).joint_vel_msg =
      node.joint_vel_msg ∧
    (setTrajectoryFromVelocity svd joint_names now kinematic_state msg node).joint_vel_pub =
      node.joint_vel_pub := by
  refine ⟨diagonal_mul_reciprocal _ hσ, delta_theta_eq _ _ hσ, ?_, ?_, ?_⟩
  · simp only [setTrajectoryFromVelocity, hg, if_true, trajectoryPoint_eq]
    rfl
  · simp [setTrajectoryFromVelocity, hg]
  · simp [setTrajectoryFromVelocity, hg]

/-- Witness for C7: with U = V = 1, all singular values 2 and all joints at 1, the command
(1, 0, 0, 0, 0, 0) sends the single waypoint (3/2, 1, 1, 1, 1, 1). -/
theorem simulation_dispatch_witness :
    (∀ i, (exampleSVD (Matrix.diagonal (fun _ => 2))).singularValues i ≠ 0) ∧
    (setTrajectoryFromVelocity exampleSVD ["j1"] 7
      ⟨Matrix.diagonal (fun _ => 2), fun _ => 1⟩ ⟨⟨1, 0, 0⟩, ⟨0, 0, 0⟩⟩
      ⟨true, false, ⟨9, 9, 9, 9, 9, 9⟩, [], []⟩).traj_pub =
    [⟨7, ["j1"], [⟨[3 / 2, 1, 1, 1, 1, 1], [0, 0, 0, 0, 0, 0], [0, 0, 0, 0, 0, 0],
      [0, 0, 0, 0, 0, 0], 1 / 2⟩]⟩] := by
  have hσ : ∀ i, (exampleSVD (Matrix.diagonal (fun _ => 2))).singularValues i ≠ 0 := by
    intro i
    simp [exampleSVD]
  have h := simulation_dispatch exampleSVD ["j1"] 7
    ⟨Matrix.diagonal (fun _ => 2), fun _ => 1⟩ ⟨⟨1, 0, 0⟩, ⟨0, 0, 0⟩⟩
    ⟨true, false, ⟨9, 9, 9, 9, 9, 9⟩, [], []⟩ rfl hσ
  refine ⟨hσ, h.2.2.1.trans ?_⟩
  rw [h.2.1]
  simp only [exampleSVD]
  simp [Matrix.mulVec_diagonal]
  exact ⟨⟨by norm_num, rfl⟩, by norm_num⟩

/-- C8: `send_kinova_joint_vels` never modifies the held vector (nor the flags or the
trajectory sink); in hardware mode it emits exactly the held vector, so two consecutive
ticks emit the same vector twice; in simulation mode it emits nothing. -/
theorem broadcast_idempotent {T : Type} (node : ControlNode T) :
    (send_kinova_joint_vels node).joint_vel_msg = node.joint_vel_msg ∧
    (send_kinova_joint_vels node).gazebo = node.gazebo ∧
    (send_kinova_joint_vels node).debug = node.debug ∧
    (send_kinova_joint_vels node).traj_pub = node.traj_pub ∧
    (node.gazebo = false →
      (send_kinova_joint_vels node).joint_vel_pub =
        node.joint_vel_pub ++ [node.joint_vel_msg] ∧
      (send_kinova_joint_vels (send_kinova_joint_vels node)).joint_vel_pub =
        node.joint_vel_pub ++ [node.joint_vel_msg, node.joint_vel_msg]) ∧
    (node.gazebo = true →
      send_kinova_joint_vels node = node ∧
      send_kinova_joint_vels (send_kinova_joint_vels node) = node) := by
  refine ⟨?_, ?_, ?_, ?_, ?_, ?_⟩
  · unfold send_kinova_joint_vels
    split <;> rfl
  · unfold send_kinova_joint_vels
    split <;> rfl
  · unfold send_kinova_joint_vels
    split <;> rfl
  · unfold send_kinova_joint_vels
    split <;> rfl
  · intro hg
    simp [send_kinova_joint_vels, hg]
  · intro hg
    simp [send_kinova_joint_vels, hg]

/-- Witness for C8: two ticks of a hardware-mode node holding (1, 2, 3, 4, 5, 6) emit that
vector twice; a simulation-mode node emits nothing. -/
theorem broadcast_idempotent_witness :
    (send_kinova_joint_vels (send_kinova_joint_vels
      (⟨false, false, ⟨1, 2, 3, 4, 5, 6⟩, [], []⟩ : ControlNode ℚ))).joint_vel_pub =
      [⟨1, 2, 3, 4, 5, 6⟩, ⟨1, 2, 3, 4, 5, 6⟩] ∧
    send_kinova_joint_vels (⟨true, false, ⟨1, 2, 3, 4, 5, 6⟩, [], []⟩ : ControlNode ℚ) =
      ⟨true, false, ⟨1, 2, 3, 4, 5, 6⟩, [], []⟩ :=
  ⟨((broadcast_idempotent
      (⟨false, false, ⟨1, 2, 3, 4, 5, 6⟩, [], []⟩ : ControlNode ℚ)).2.2.2.2.1 rfl).2,
   ((broadcast_idempotent
      (⟨true, false, ⟨1, 2, 3, 4, 5, 6⟩, [], []⟩ : ControlNode ℚ)).2.2.2.2.2 rfl).1⟩

end Dispatch

end Kinova
